import Mathlib

/-!
Verification development for the opentelemetry-collector-config-schema
repository: a shallow embedding of the JSON-schema derivation engine
(`build/schema_generator.go`) and of the schema registry
(`component_schema.go`), together with theorems settling the frozen claims
about them.

The Go code inspects configuration types through `reflect`; here the
relevant part of `reflect.Type` is embedded as an inductive tree of type
shapes (`GoType`), struct fields carry their tag key/value pairs
(`StructTag`), and the `map[string]interface{}` schema nodes produced by
the generator are embedded as association objects (`JObj`) over a small
JSON value type (`JValue`).  Machine string functions from Go's `strings`
package are modelled on `List Char`, matching their byte-wise semantics on
the ASCII data the generator handles.
-/

set_option autoImplicit false

namespace CollectorSchema

/-! ## String helpers (models of Go `strings` functions) -/

/-- Model of `strings.HasPrefix` on character lists: `charsStartsWith p s`
is true when `p` is a prefix of `s`. -/
def charsStartsWith : List Char → List Char → Bool
  | [], _ => true
  | _ :: _, [] => false
  | c :: cs, d :: ds => c = d && charsStartsWith cs ds

/-- Model of `strings.Contains` on character lists: scans every suffix of
`s` for the pattern `sub`. -/
def charsContains : List Char → List Char → Bool
  | s, sub =>
    charsStartsWith sub s ||
      match s with
      | [] => false
      | _ :: t => charsContains t sub

/-- Model of `strings.Contains`. -/
def strContains (s sub : String) : Bool :=
  charsContains s.data sub.data

/-- Model of `strings.HasPrefix`. -/
def strStartsWith (s p : String) : Bool :=
  charsStartsWith p.data s.data

/-- Model of `strings.HasSuffix`. -/
def strEndsWith (s suffix : String) : Bool :=
  charsStartsWith suffix.data.reverse s.data.reverse

/-- Model of `strings.TrimSuffix`. -/
def strTrimSuffix (s suffix : String) : String :=
  if strEndsWith s suffix then ⟨s.data.take (s.data.length - suffix.data.length)⟩ else s

/-- `strings.Split(s, ",")[0]`: the prefix of `s` up to (excluding) the
first comma; `strings.Split` never returns an empty slice, and its first
element is exactly this prefix. -/
def takeUntilComma : List Char → List Char
  | [] => []
  | c :: cs => if c = ',' then [] else c :: takeUntilComma cs

/-- First element of `strings.Split(s, ",")`. -/
def firstCommaField (s : String) : String :=
  ⟨takeUntilComma s.data⟩

/-- Model of `strings.SplitN(s, "_", 2)`: `none` when `s` has no
underscore (the split has a single element), otherwise the parts before
and after the first underscore. -/
def charsSplitFirstUnderscore : List Char → Option (List Char × List Char)
  | [] => none
  | c :: cs =>
    if c = '_' then some ([], cs)
    else (charsSplitFirstUnderscore cs).map (fun p => (c :: p.1, p.2))

/-- `strings.SplitN(name, "_", 2)` as an optional pair. -/
def splitFirstUnderscore (s : String) : Option (String × String) :=
  (charsSplitFirstUnderscore s.data).map (fun p => (⟨p.1⟩, ⟨p.2⟩))

/-- Model of `strings.ToLower` (ASCII, which covers the Go field names the
generator sees). -/
def strToLower (s : String) : String :=
  ⟨s.data.map Char.toLower⟩

/-! ## JSON values and objects

The generator builds `map[string]interface{}` values whose entries are
strings, booleans, `[]string` required lists, or nested maps.  `JObj` is
an association object with Go-map assignment semantics (`set` overwrites
an existing key, otherwise appends). -/

inductive JValue : Type where
  | str (s : String)
  | bool (b : Bool)
  | strList (l : List String)
  | obj (o : List (String × JValue))

/-- A schema node: the `map[string]interface{}` the generator builds. -/
abbrev JObj := List (String × JValue)

/-- Go map assignment `m[k] = v`: overwrite the entry if the key is
present, otherwise add it. -/
def JObj.set : JObj → String → JValue → JObj
  | [], k, v => [(k, v)]
  | (k', v') :: rest, k, v =>
    if k' = k then (k, v) :: rest else (k', v') :: JObj.set rest k v

/-- Go map read `m[k]` (`nil` for a missing key becomes `none`). -/
def JObj.get? : JObj → String → Option JValue
  | [], _ => none
  | (k', v) :: rest, k => if k' = k then some v else JObj.get? rest k

@[simp] theorem JObj.get?_set (m : JObj) (k : String) (v : JValue) :
    JObj.get? (JObj.set m k v) k = some v := by
  induction m with
  | nil => simp [JObj.set, JObj.get?]
  | cons p rest ih =>
    by_cases h : p.1 = k <;> simp [JObj.set, JObj.get?, h, ih]

/-! ## The embedded fragment of `reflect`

A `GoType` carries the `Name()`, `PkgPath()` and `Kind()`-level shape of a
reflect type.  Integer kinds are distinguished (the second generator copy
branches on `reflect.Int` / `reflect.Int64` for slice items); both float
kinds map identically everywhere and are collapsed.  Struct fields carry
the parsed struct tag as key/value pairs, `reflect.StructTag.Get`
returning `""` for an absent key. -/

/-- `reflect.Int`..`reflect.Uint64`, all of which the generators map to
`"integer"`. -/
inductive IntKind : Type where
  | i | i8 | i16 | i32 | i64 | u | u8 | u16 | u32 | u64
deriving DecidableEq

/-- Parsed struct tag: association list of tag keys to tag values. -/
abbrev StructTag := List (String × String)

/-- Model of `reflect.StructTag.Get`: first matching key, `""` if none. -/
def tagGet : StructTag → String → String
  | [], _ => ""
  | (k, v) :: rest, key => if k = key then v else tagGet rest key

mutual

inductive GoType : Type where
  | mk (name pkgPath : String) (shape : GoShape)

inductive GoShape : Type where
  | str
  | int (k : IntKind)
  | float
  | bool
  | slice (elem : GoType)
  | array (elem : GoType)
  | map (key value : GoType)
  | ptr (elem : GoType)
  | strct (fields : List GoField)
  | iface
  | other

inductive GoField : Type where
  | mk (name : String) (tag : StructTag) (ty : GoType) (anonymous : Bool)

end

def GoType.name : GoType → String
  | .mk n _ _ => n

def GoType.pkgPath : GoType → String
  | .mk _ p _ => p

def GoType.shape : GoType → GoShape
  | .mk _ _ s => s

def GoField.name : GoField → String
  | .mk n _ _ _ => n

def GoField.tag : GoField → StructTag
  | .mk _ t _ _ => t

def GoField.ty : GoField → GoType
  | .mk _ _ t _ => t

def GoField.anonymous : GoField → Bool
  | .mk _ _ _ a => a

/-- `reflect.StructField.IsExported`: the field name starts with an upper
case letter (ASCII, which covers the generator's inputs). -/
def isExported (name : String) : Bool :=
  match name.data with
  | [] => false
  | c :: _ => c.isUpper

/-- The single pointer dereference `if t.Kind() == reflect.Ptr { t = t.Elem() }`
that several generator functions apply. -/
def stripPtrOnce (t : GoType) : GoType :=
  match t with
  | .mk _ _ (.ptr e) => e
  | t => t

/-! ## Non-recursive pieces of the generator -/

/-- `getFieldName` (schema_generator.go:248-268): prefer the first
mapstructure tag component, then the first json tag component (unless it
is `"-"`), then the lower-cased Go field name. -/
def getFieldName (field : GoField) : String :=
  let msTag := tagGet field.tag "mapstructure"
  if msTag ≠ "" ∧ firstCommaField msTag ≠ "" then firstCommaField msTag
  else
    let jTag := tagGet field.tag "json"
    if jTag ≠ "" ∧ firstCommaField jTag ≠ "" ∧ firstCommaField jTag ≠ "-" then
      firstCommaField jTag
    else strToLower field.name

/-- Lines 372-382 of `generatePropertySchema`: attach a description from
the `description` tag, else from a comma-free `yaml` tag when no
description is present yet. -/
def attachTagDescriptions (property : JObj) (tag : StructTag) : JObj :=
  let property :=
    if tagGet tag "description" ≠ "" then
      JObj.set property "description" (.str (tagGet tag "description"))
    else property
  let yamlDesc := tagGet tag "yaml"
  if yamlDesc ≠ "" ∧ strContains yamlDesc "," = false ∧ (JObj.get? property "description").isNone = true then
    JObj.set property "description" (.str yamlDesc)
  else property

/-- The first loop of `unwrapOptionalType` (lines 463-478): the type of the
first field named `"value"`, after one pointer dereference. -/
def findValueField : List GoField → Option GoType
  | [] => none
  | f :: rest =>
    if f.name = "value" then some (stripPtrOnce f.ty) else findValueField rest

/-- `fieldType.Kind() == reflect.Struct && fieldType.NumField() > 0`. -/
def isNonEmptyStruct (t : GoType) : Bool :=
  match t with
  | .mk _ _ (.strct (_ :: _)) => true
  | _ => false

/-- The second loop of `unwrapOptionalType` (lines 481-502): the first
exported field, not named `"_"` or `"flavor"`, whose type is (after one
pointer dereference) a struct with at least one field. -/
def findFallbackField : List GoField → Option GoType
  | [] => none
  | f :: rest =>
    if (isExported f.name && !(f.name == "_") && !(f.name == "flavor"))
        && isNonEmptyStruct (stripPtrOnce f.ty) then
      some (stripPtrOnce f.ty)
    else findFallbackField rest

/-! ### Size lemmas used for termination of the mutual recursion -/

theorem sizeOf_stripPtrOnce_le (t : GoType) : sizeOf (stripPtrOnce t) ≤ sizeOf t := by
  cases t with
  | mk n p s =>
    cases s
    all_goals simp [stripPtrOnce]
    all_goals omega

theorem sizeOf_ty_lt (f : GoField) : sizeOf f.ty < sizeOf f := by
  cases f with
  | mk n t ty a => simp [GoField.ty]; omega

theorem findValueField_sizeOf {fs : List GoField} {t : GoType}
    (h : findValueField fs = some t) : sizeOf t < sizeOf fs := by
  induction fs with
  | nil => simp [findValueField] at h
  | cons f rest ih =>
    unfold findValueField at h
    split at h
    · have h1 : t = stripPtrOnce f.ty := by
        cases h; rfl
      have h2 := sizeOf_stripPtrOnce_le f.ty
      have h3 := sizeOf_ty_lt f
      subst h1
      simp
      omega
    · have h4 := ih h
      simp
      omega

theorem findFallbackField_sizeOf {fs : List GoField} {t : GoType}
    (h : findFallbackField fs = some t) : sizeOf t < sizeOf fs := by
  induction fs with
  | nil => simp [findFallbackField] at h
  | cons f rest ih =>
    unfold findFallbackField at h
    split at h
    · have h1 : t = stripPtrOnce f.ty := by
        cases h; rfl
      have h2 := sizeOf_stripPtrOnce_le f.ty
      have h3 := sizeOf_ty_lt f
      subst h1
      simp
      omega
    · have h4 := ih h
      simp
      omega

/-! ## The derivation engine, first copy (schema_generator.go:1-524)

Mutual translation of `generatePropertySchema`, `analyzeStructFields`,
`handleEmbeddedField`, `generateTypeSchema` and `unwrapOptionalType`.
`generatePropertySchema` (resp. `generateTypeSchema`) is split at the
single pointer dereference that opens it in the source: the remainder of
the function body — which in the source only mentions `field.Tag`, the
dereferenced `fieldType`, and the already-computed `isRequired` — is
`generatePropertySchemaCore` (resp. `generateTypeSchemaCore`). -/

mutual

/-- `generatePropertySchema` (lines 270-286): pointer fields are
dereferenced and never required; other fields are required unless the
mapstructure or json tag contains `"omitempty"`. -/
def generatePropertySchema : GoField → Except String (JObj × Bool)
  | .mk _ ftag fty _ =>
    match fty with
    | .mk _ _ (.ptr e) => generatePropertySchemaCore ftag e false
    | t =>
      let tags := tagGet ftag "mapstructure"
      let jsonTags := tagGet ftag "json"
      generatePropertySchemaCore ftag t
        (!strContains tags "omitempty" && !strContains jsonTags "omitempty")
termination_by f => 2 * sizeOf f + 1
decreasing_by
all_goals simp_wf
all_goals omega

/-- `generatePropertySchema` lines 288-384: the `time.Duration` special
case, the kind switch, and the tag-description attachment. -/
def generatePropertySchemaCore (tag : StructTag) (fieldType : GoType) (isRequired : Bool) :
    Except String (JObj × Bool) :=
  if fieldType.name = "Duration" ∧ strContains fieldType.pkgPath "time" = true then
    .ok (JObj.set (JObj.set (JObj.set [] "type" (.str "string"))
          "pattern" (.str "^[0-9]+(ns|us|µs|ms|s|m|h)$"))
          "description" (.str "Duration string (e.g., '1s', '5m', '1h')"),
        isRequired)
  else
    match fieldType with
    | .mk name pkgPath shape =>
      match shape with
      | .str =>
        .ok (attachTagDescriptions (JObj.set [] "type" (.str "string")) tag, isRequired)
      | .int _ =>
        .ok (attachTagDescriptions (JObj.set [] "type" (.str "integer")) tag, isRequired)
      | .float =>
        .ok (attachTagDescriptions (JObj.set [] "type" (.str "number")) tag, isRequired)
      | .bool =>
        .ok (attachTagDescriptions (JObj.set [] "type" (.str "boolean")) tag, isRequired)
      | .slice elem | .array elem =>
        match generateTypeSchema elem with
        | .error e => .error ("failed to generate array item schema: " ++ e)
        | .ok itemSchema =>
          .ok (attachTagDescriptions
                (JObj.set (JObj.set [] "type" (.str "array")) "items" (.obj itemSchema)) tag,
              isRequired)
      | .map key value =>
        let property :=
          JObj.set (JObj.set [] "type" (.str "object")) "additionalProperties" (.bool true)
        let property :=
          match key.shape with
          | .str =>
            match generateTypeSchema value with
            | .ok valueSchema =>
              if 0 < valueSchema.length then
                JObj.set property "additionalProperties" (.obj valueSchema)
              else property
            | .error _ => property
          | _ => property
        .ok (attachTagDescriptions property tag, isRequired)
      | .strct fs =>
        if name = "Time" ∧ strContains pkgPath "time" = true then
          .ok (attachTagDescriptions
                (JObj.set (JObj.set [] "type" (.str "string")) "format" (.str "date-time")) tag,
              isRequired)
        else if strStartsWith name "Optional" ∧ strContains pkgPath "configoptional" = true then
          match unwrapOptionalType fs with
          | .ok unwrappedSchema => .ok (unwrappedSchema, false)
          | .error _ =>
            .ok (attachTagDescriptions (JObj.set [] "type" (.str "object")) tag, isRequired)
        else
          match analyzeStructFields fs [] [] with
          | .error e => .error ("failed to analyze struct fields: " ++ e)
          | .ok (nestedProperties, nestedRequired) =>
            let property := JObj.set [] "type" (.str "object")
            let property :=
              if 0 < nestedProperties.length then
                JObj.set property "properties" (.obj nestedProperties)
              else property
            let property :=
              if 0 < nestedRequired.length then
                JObj.set property "required" (.strList nestedRequired)
              else property
            .ok (attachTagDescriptions property tag, isRequired)
      | .iface =>
        .ok (attachTagDescriptions
              (JObj.set (JObj.set [] "type" (.str "object")) "additionalProperties" (.bool true))
              tag,
            isRequired)
      | .ptr _ | .other =>
        .ok (attachTagDescriptions (JObj.set [] "type" (.str "object")) tag, isRequired)
termination_by 2 * sizeOf fieldType
decreasing_by
all_goals simp_wf
all_goals omega

/-- `analyzeStructFields` (lines 190-228): skip unexported fields, flatten
anonymous fields, skip suppressed names, and accumulate each field's
property and required flag. -/
def analyzeStructFields (fields : List GoField) (properties : JObj) (required : List String) :
    Except String (JObj × List String) :=
  match fields with
  | [] => .ok (properties, required)
  | field :: rest =>
    if !isExported field.name then
      analyzeStructFields rest properties required
    else if field.anonymous then
      match handleEmbeddedField field properties required with
      | .error e => .error ("failed to handle embedded field " ++ field.name ++ ": " ++ e)
      | .ok pr => analyzeStructFields rest pr.1 pr.2
    else
      let fieldName := getFieldName field
      if fieldName = "" ∨ fieldName = "-" then
        analyzeStructFields rest properties required
      else
        match generatePropertySchema field with
        | .error e =>
          .error ("failed to generate property schema for field " ++ field.name ++ ": " ++ e)
        | .ok pi =>
          let properties' := JObj.set properties fieldName (.obj pi.1)
          let required' := if pi.2 then required ++ [fieldName] else required
          analyzeStructFields rest properties' required'
termination_by 2 * sizeOf fields
decreasing_by
all_goals simp_wf
all_goals omega

/-- `handleEmbeddedField` (lines 230-246): only embedded structs (after
one pointer dereference) are flattened; anything else is ignored. -/
def handleEmbeddedField (field : GoField) (properties : JObj) (required : List String) :
    Except String (JObj × List String) :=
  match h : stripPtrOnce field.ty with
  | .mk _ _ (.strct fs) => analyzeStructFields fs properties required
  | _ => .ok (properties, required)
termination_by 2 * sizeOf field
decreasing_by
all_goals simp_wf
have h1 := sizeOf_stripPtrOnce_le field.ty
rw [h] at h1
have h2 := sizeOf_ty_lt field
simp at h1
omega

/-- `generateTypeSchema` (lines 387-456): one pointer dereference, then
the kind switch of `generateTypeSchemaCore`. -/
def generateTypeSchema : GoType → Except String JObj
  | .mk _ _ (.ptr e) => generateTypeSchemaCore e
  | t => generateTypeSchemaCore t
termination_by t => 2 * sizeOf t + 1
decreasing_by
all_goals simp_wf
all_goals omega

/-- `generateTypeSchema` lines 396-455: the `time.Duration` special case
and the kind switch (errors of recursive calls are swallowed here). -/
def generateTypeSchemaCore (t : GoType) : Except String JObj :=
  if t.name = "Duration" ∧ strContains t.pkgPath "time" = true then
    .ok (JObj.set (JObj.set (JObj.set [] "type" (.str "string"))
          "pattern" (.str "^[0-9]+(ns|us|µs|ms|s|m|h)$"))
          "description" (.str "Duration string (e.g., '1s', '5m', '1h')"))
  else
    match t with
    | .mk name pkgPath shape =>
      match shape with
      | .str => .ok (JObj.set [] "type" (.str "string"))
      | .int _ => .ok (JObj.set [] "type" (.str "integer"))
      | .float => .ok (JObj.set [] "type" (.str "number"))
      | .bool => .ok (JObj.set [] "type" (.str "boolean"))
      | .slice elem | .array elem =>
        let schema := JObj.set [] "type" (.str "array")
        match generateTypeSchema elem with
        | .ok itemSchema => .ok (JObj.set schema "items" (.obj itemSchema))
        | .error _ => .ok schema
      | .map _ _ =>
        .ok (JObj.set (JObj.set [] "type" (.str "object")) "additionalProperties" (.bool true))
      | .strct fs =>
        if name = "Time" ∧ strContains pkgPath "time" = true then
          .ok (JObj.set (JObj.set [] "type" (.str "string")) "format" (.str "date-time"))
        else
          let schema := JObj.set [] "type" (.str "object")
          match analyzeStructFields fs [] [] with
          | .error _ => .ok schema
          | .ok pr =>
            let schema :=
              if 0 < pr.1.length then JObj.set schema "properties" (.obj pr.1) else schema
            let schema :=
              if 0 < pr.2.length then JObj.set schema "required" (.strList pr.2) else schema
            .ok schema
      | .iface =>
        .ok (JObj.set (JObj.set [] "type" (.str "object")) "additionalProperties" (.bool true))
      | .ptr _ | .other => .ok (JObj.set [] "type" (.str "object"))
termination_by 2 * sizeOf t
decreasing_by
all_goals simp_wf
all_goals omega

/-- `unwrapOptionalType` (lines 458-508): look for the `"value"` payload
field, then for any exported non-empty struct payload field, and fall back
to a generic object schema. -/
def unwrapOptionalType (fs : List GoField) : Except String JObj :=
  match h : findValueField fs with
  | some t => generateTypeSchema t
  | none =>
    match h2 : findFallbackField fs with
    | some t => generateTypeSchema t
    | none => .ok (JObj.set [] "type" (.str "object"))
termination_by 2 * sizeOf fs
decreasing_by
all_goals simp_wf
· have h3 := findValueField_sizeOf h
  omega
· have h3 := findFallbackField_sizeOf h2
  omega

end

/-- `configType.NumField()` iteration target: the fields of a struct type
(the generator is only invoked on struct configuration types). -/
def fieldsOfStruct (t : GoType) : List GoField :=
  match t with
  | .mk _ _ (.strct fs) => fs
  | _ => []

/-- `generateJSONSchema` (schema_generator.go:160-188): dereference the
config pointer, analyze the struct fields, and assemble the top-level
schema document. -/
def generateJSONSchema (config : GoType) : Except String JObj :=
  let configType := stripPtrOnce config
  match analyzeStructFields (fieldsOfStruct configType) [] [] with
  | .error e => .error e
  | .ok pr =>
    let schema := JObj.set (JObj.set (JObj.set (JObj.set []
      "$schema" (.str "https://json-schema.org/draft/2020-12/schema"))
      "type" (.str "object"))
      "title" (.str (configType.name ++ " Configuration")))
      "properties" (.obj pr.1)
    if 0 < pr.2.length then .ok (JObj.set schema "required" (.strList pr.2)) else .ok schema

/-! ## The derivation engine, second copy (schema_generator.go:525-853)

The file's second `generatePropertySchema` (lines 768-836).  It consults
only the mapstructure tag for omitempty, infers slice items from the
element kind without recursion, and places its `Duration` and `Time`
special cases inside the `reflect.Struct` branch, keyed on the type name
alone. -/

def generatePropertySchemaV2 (field : GoField) : JObj × Bool :=
  let p :=
    match field.ty with
    | .mk _ _ (.ptr e) => (e, false)
    | t => (t, !strContains (tagGet field.tag "mapstructure") "omitempty")
  let fieldType := p.1
  let isRequired := p.2
  let property : JObj :=
    match fieldType with
    | .mk name _ shape =>
      match shape with
      | .str => JObj.set [] "type" (.str "string")
      | .int _ => JObj.set [] "type" (.str "integer")
      | .float => JObj.set [] "type" (.str "number")
      | .bool => JObj.set [] "type" (.str "boolean")
      | .slice elem | .array elem =>
        let property := JObj.set [] "type" (.str "array")
        match elem.shape with
        | .str => JObj.set property "items" (.obj (JObj.set [] "type" (.str "string")))
        | .int .i => JObj.set property "items" (.obj (JObj.set [] "type" (.str "integer")))
        | .int .i64 => JObj.set property "items" (.obj (JObj.set [] "type" (.str "integer")))
        | _ => JObj.set property "items" (.obj [])
      | .map _ _ =>
        JObj.set (JObj.set [] "type" (.str "object")) "additionalProperties" (.bool true)
      | .strct _ =>
        let property := JObj.set [] "type" (.str "object")
        if name = "Duration" then
          JObj.set (JObj.set (JObj.set property "type" (.str "string"))
            "pattern" (.str "^[0-9]+(ns|us|µs|ms|s|m|h)$"))
            "description" (.str "Duration string (e.g., '1s', '5m', '1h')")
        else if name = "Time" then
          JObj.set (JObj.set property "type" (.str "string")) "format" (.str "date-time")
        else property
      | .ptr _ | .iface | .other => JObj.set [] "type" (.str "object")
  let property :=
    if tagGet field.tag "description" ≠ "" then
      JObj.set property "description" (.str (tagGet field.tag "description"))
    else property
  (property, isRequired)

/-! ## The engine on cyclic type graphs

`reflect.Type` values form a graph, not a tree: a struct type can occur in
its own field types (for example through a pointer).  To examine the
engine on such graphs, named struct types are nodes of an environment and
a field's type references a node by index.  The functions below mirror the
recursion of `analyzeStructFields` / `generatePropertySchema` on the kinds
involved (strings, the single pointer dereference, struct types), with
explicit fuel: each `analyzeStructFields` level consumes one unit, and
`none` means the recursion did not complete within the given fuel.  The
source performs this recursion with no revisit detection of any kind. -/

inductive GTy : Type where
  | gstring
  | gptr (t : GTy)
  | gref (i : Nat)
deriving DecidableEq

/-- A type graph: node `i` is a named struct type with the given fields. -/
abbrev GEnv := List (List (String × GTy))

/-- Reference targets the engine recurses into from a field of this type:
a struct node directly, or behind one pointer dereference (behind two the
kind switch falls to the opaque default and does not recurse). -/
def refsOfGTy : GTy → List Nat
  | .gstring => []
  | .gref i => [i]
  | .gptr (.gref i) => [i]
  | .gptr _ => []

/-- All node references the engine follows from a field list. -/
def fieldRefs (fields : List (String × GTy)) : List Nat :=
  fields.flatMap (fun f => refsOfGTy f.2)

mutual

/-- `analyzeStructFields` on the graph view, with fuel. -/
def analyzeStructFieldsG : Nat → GEnv → List (String × GTy) → Option JObj
  | 0, _, _ => none
  | n + 1, env, fields => goStructFieldsG n env fields []

/-- The field loop of `analyzeStructFields` on the graph view. -/
def goStructFieldsG : Nat → GEnv → List (String × GTy) → JObj → Option JObj
  | _, _, [], acc => some acc
  | n, env, (nm, ty) :: rest, acc =>
    match generatePropertySchemaG n env ty with
    | none => none
    | some p => goStructFieldsG n env rest (JObj.set acc nm p)

/-- `generatePropertySchema` on the graph view: the single pointer
dereference, then the kind switch of `generatePropertySchemaGCore`. -/
def generatePropertySchemaG (n : Nat) (env : GEnv) : GTy → Option JValue
  | .gptr e => generatePropertySchemaGCore n env e
  | t => generatePropertySchemaGCore n env t

/-- The kind switch on the graph view: strings map to a string schema,
struct nodes recurse into their fields, anything else falls to the opaque
default. -/
def generatePropertySchemaGCore (n : Nat) (env : GEnv) (ft : GTy) : Option JValue :=
  match ft with
  | .gstring => some (.obj (JObj.set [] "type" (.str "string")))
  | .gref i =>
    match env.get? i with
    | some fields =>
      match analyzeStructFieldsG n env fields with
      | none => none
      | some props =>
        some (.obj (JObj.set (JObj.set [] "type" (.str "object")) "properties" (.obj props)))
    | none => some (.obj (JObj.set [] "type" (.str "object")))
  | .gptr _ => some (.obj (JObj.set [] "type" (.str "object")))

end

/-- The engine completes on the graph `env` starting from `fields` when
some amount of fuel suffices. -/
def derivesWithSomeFuel (env : GEnv) (fields : List (String × GTy)) : Prop :=
  ∃ n, (analyzeStructFieldsG n env fields).isSome

/-- An acyclicity certificate: every node reference strictly descends a
rank. -/
def RankOK (env : GEnv) (rank : Nat → Nat) : Prop :=
  ∀ i fields, env.get? i = some fields → ∀ j ∈ fieldRefs fields, rank j < rank i

/-! ## The schema registry (component_schema.go) -/

/-- `ComponentSchema` (component_schema.go:29-35); the Go field `Type`
(the component category) is `Type'` here, `Type` being a Lean keyword. -/
structure ComponentSchema where
  Name : String
  Type' : String
  Version : String
  Schema : JObj
  Description : String

instance : Inhabited ComponentSchema :=
  ⟨⟨"", "", "", [], ""⟩⟩

/-- A directory entry of the embedded filesystem (`fs.ReadDir` result). -/
structure DirEntry where
  name : String
  isDir : Bool

/-- The embedded backing store `embed.FS`: directory listings per path
and, per file path, the outcome of reading the file and JSON-decoding it
into a `map[string]interface{}` (`some none` = present but not parseable
as a JSON object; absent path = no such file).  `fs.ReadFile` and
`json.Unmarshal` are external library calls; the registry only branches
on their success. -/
structure EmbeddedFS where
  dirs : List (String × List DirEntry)
  files : List (String × Option JObj)

/-- Association-list lookup (a Go map read or a path lookup). -/
def alookup {α : Type} : List (String × α) → String → Option α
  | [], _ => none
  | (k, v) :: rest, key => if k = key then some v else alookup rest key

/-- `isValidComponentType` (component_schema.go:194-201). -/
def isValidComponentType (componentType : String) : Bool :=
  componentType == "receiver" || componentType == "processor" ||
    componentType == "exporter" || componentType == "extension" ||
    componentType == "connector"

/-- Go `components[componentType] = append(components[componentType], name)`. -/
def addComponent (m : List (String × List String)) (k v : String) :
    List (String × List String) :=
  match m with
  | [] => [(k, [v])]
  | (k', vs) :: rest =>
    if k' = k then (k', vs ++ [v]) :: rest else (k', vs) :: addComponent rest k v

/-- The loop body of `listEmbeddedComponents` (lines 126-149). -/
def listStep (m : List (String × List String)) (entry : DirEntry) :
    List (String × List String) :=
  if entry.isDir || !strEndsWith entry.name ".json" then m
  else
    match splitFirstUnderscore (strTrimSuffix entry.name ".json") with
    | none => m
    | some p => if isValidComponentType p.1 then addComponent m p.1 p.2 else m

/-- `listEmbeddedComponents` (component_schema.go:116-152). -/
def listEmbeddedComponents (fs : EmbeddedFS) (version : String) :
    Except String (List (String × List String)) :=
  match alookup fs.dirs ("schemas/v" ++ version) with
  | none => .error "failed to read embedded schema directory"
  | some entries => .ok (entries.foldl listStep [])

/-- `ListAvailableComponents` (component_schema.go:82-84). -/
def ListAvailableComponents (fs : EmbeddedFS) (version : String) :
    Except String (List (String × List String)) :=
  listEmbeddedComponents fs version

/-- `loadSchemaFromFile` (component_schema.go:155-191). -/
def loadSchemaFromFile (fs : EmbeddedFS) (componentType componentName version : String) :
    Except String ComponentSchema :=
  let filename := componentType ++ "_" ++ componentName ++ ".json"
  let embeddedFilepath := "schemas/v" ++ version ++ "/" ++ filename
  match alookup fs.files embeddedFilepath with
  | none => .error ("schema not found for component " ++ componentType ++ " " ++ componentName)
  | some none =>
    .error ("failed to parse schema JSON for " ++ componentType ++ " " ++ componentName)
  | some (some schemaData) =>
    let description :=
      match JObj.get? schemaData "title" with
      | some (.str titleStr) => titleStr
      | _ => ""
    .ok { Name := componentName, Type' := componentType, Version := version,
          Schema := schemaData, Description := description }

/-- The heap of `&ComponentSchema` allocations: a pointer is an index into
it, and each successful load allocates a fresh object. -/
structure Heap where
  objs : List ComponentSchema

def Heap.alloc (h : Heap) (cs : ComponentSchema) : Heap × Nat :=
  (⟨h.objs ++ [cs]⟩, h.objs.length)

def Heap.read (h : Heap) (addr : Nat) : ComponentSchema :=
  h.objs.getD addr default

/-- `SchemaManager` (component_schema.go:38-47): the cache maps a key to
the pointer of the cached `ComponentSchema`. -/
structure SchemaManager where
  cache : List (String × Nat)

/-- `fmt.Sprintf` of the cache key (component_schema.go:52). -/
def cacheKeyOf (componentType componentName version : String) : String :=
  componentType ++ "_" ++ componentName ++ "_" ++ version

/-- Go map assignment on the cache. -/
def cacheSet (m : List (String × Nat)) (k : String) (v : Nat) : List (String × Nat) :=
  match m with
  | [] => [(k, v)]
  | (k', v') :: rest => if k' = k then (k, v) :: rest else (k', v') :: cacheSet rest k v

/-- `GetComponentSchema` (component_schema.go:50-69).  The `Bool` of the
result records whether the call reached the load step (performed store
I/O). -/
def GetComponentSchema (sm : SchemaManager) (heap : Heap) (fs : EmbeddedFS)
    (componentType componentName version : String) :
    Except String Nat × SchemaManager × Heap × Bool :=
  let cacheKey := cacheKeyOf componentType componentName version
  match alookup sm.cache cacheKey with
  | some addr => (.ok addr, sm, heap, false)
  | none =>
    match loadSchemaFromFile fs componentType componentName version with
    | .error e => (.error e, sm, heap, true)
    | .ok schema =>
      let pr := heap.alloc schema
      (.ok pr.2, ⟨cacheSet sm.cache cacheKey pr.2⟩, pr.1, true)

/-- `gojsonschema.Result`: validity flag plus violation descriptions. -/
structure ValidationResult where
  valid : Bool
  errors : List String

/-- Model of the external `gojsonschema.Validate` call on two byte
loaders.  The candidate document bytes enter as their parse outcome
(`none` = syntactically malformed JSON): on a malformed document the
library's document loader fails and `Validate` returns an error; on a
well-formed one it returns a `Result`, whose structural checking rules
are abstracted as the parameter `check`. -/
def gojsonschemaValidate (check : JObj → JValue → ValidationResult)
    (schema : JObj) (document : Option JValue) : Except String ValidationResult :=
  match document with
  | none => .error "invalid character or unexpected end of JSON input"
  | some doc => .ok (check schema doc)

/-- `ValidateComponentJSON` (component_schema.go:87-113).  `jsonData` is
the candidate document as the parse outcome of its bytes; `json.Marshal`
of the in-memory schema object cannot fail and is elided. -/
def ValidateComponentJSON (check : JObj → JValue → ValidationResult)
    (sm : SchemaManager) (heap : Heap) (fs : EmbeddedFS)
    (componentType componentName version : String) (jsonData : Option JValue) :
    Except String ValidationResult × SchemaManager × Heap :=
  match GetComponentSchema sm heap fs componentType componentName version with
  | (.error e, sm', heap', _) =>
    (.error ("failed to get schema for " ++ componentType ++ " " ++ componentName ++
      " v" ++ version ++ ": " ++ e), sm', heap')
  | (.ok addr, sm', heap', _) =>
    let componentSchema := Heap.read heap' addr
    match gojsonschemaValidate check componentSchema.Schema jsonData with
    | .error e =>
      (.error ("validation failed for " ++ componentType ++ " " ++ componentName ++ ": " ++ e),
        sm', heap')
    | .ok result => (.ok result, sm', heap')

/-! ## Field-description priority -/

/-- Modelled from the spec: the Documentation Extractor (spec section 4.2)
is a component of this repository that is not among the files under
verification; only its consumer side appears here.  Its lookup result for
the declaring type name and field name enters as `docString`, and per the
spec it has first priority, ahead of the tag-based sources of
`generatePropertySchema` (schema_generator.go:372-382), which are the
source-derived `attachTagDescriptions`. -/
def attachFieldDescription (docString : Option String) (property : JObj) (tag : StructTag) :
    JObj :=
  match docString with
  | some d => JObj.set property "description" (.str d)
  | none => attachTagDescriptions property tag

/-- Spec-side description of the list operation (for the refinement
comparison of claim C6): the names obtained by splitting each stored
`category_name.json` filename at the first underscore, skipping
directories, entries without the `.json` suffix and names without an
underscore, and keeping only the five fixed categories — grouped per
requested category. -/
def listSpecComponents (entries : List DirEntry) (category : String) : List String :=
  entries.filterMap (fun e =>
    if e.isDir then none
    else if !strEndsWith e.name ".json" then none
    else
      match splitFirstUnderscore (strTrimSuffix e.name ".json") with
      | none => none
      | some p =>
        if isValidComponentType p.1 && p.1 == category then some p.2 else none)

/-- The contribution of one directory entry to a category, per the
spec-side reading (proof-internal decomposition of
`listSpecComponents`). -/
def entrySpec (e : DirEntry) (c : String) : List String :=
  if e.isDir then []
  else if !strEndsWith e.name ".json" then []
  else
    match splitFirstUnderscore (strTrimSuffix e.name ".json") with
    | none => []
    | some p => if isValidComponentType p.1 && p.1 == c then [p.2] else []

/-- Per-category read of the accumulated component map (absent category =
empty list, as ranging over a missing Go map key). -/
def lookupComponents (m : List (String × List String)) (category : String) : List String :=
  match m with
  | [] => []
  | (k, vs) :: rest => if k = category then vs else lookupComponents rest category

/-! ## Inputs and predicates used by the claim theorems -/

/-- The shape of `configoptional.Optional` instantiated at a payload type
`T`: the unexported `value` payload field and the unexported `hasValue`
presence flag.  `reflect.Name()` of such an instantiation starts with
`Optional` and its package path contains `configoptional`. -/
def optionalWrapper (T : GoType) : GoType :=
  GoType.mk "Optional[T]" "go.opentelemetry.io/collector/config/configoptional"
    (.strct [GoField.mk "value" [] T false,
             GoField.mk "hasValue" [] (GoType.mk "" "" .bool) false])

/-- The field type is a pointer kind. -/
def isPtrType (t : GoType) : Bool :=
  match t with
  | .mk _ _ (.ptr _) => true
  | _ => false

/-- The conditions under which `generatePropertySchemaCore` takes the
configoptional unwrapping branch on the (already dereferenced) field type:
a struct kind, missing the Duration and Time special cases, whose name
starts with `Optional` in a package path containing `configoptional`. -/
def OptionalBranch (t : GoType) : Prop :=
  (∃ fields, t.shape = .strct fields) ∧
    ¬(t.name = "Duration" ∧ strContains t.pkgPath "time" = true) ∧
    ¬(t.name = "Time" ∧ strContains t.pkgPath "time" = true) ∧
    (strStartsWith t.name "Optional" = true ∧ strContains t.pkgPath "configoptional" = true)

/-- `time.Duration` as `reflect` reports it: named `Duration` in package
`time`, of kind `Int64`. -/
def tyDuration : GoType :=
  GoType.mk "Duration" "time" (.int .i64)

/-- The `Timeout time.Duration` field of the repository's own
`DatabaseConfig` test type (build/test_component.go:23). -/
def timeoutField : GoField :=
  GoField.mk "Timeout" [("mapstructure", "timeout")] tyDuration false

/-- The `HTTPServer configoptional.Optional[...]` field of the
repository's own `TestReceiverConfig` test type
(build/test_component.go:32), with a string payload standing in for the
server config. -/
def httpServerField : GoField :=
  GoField.mk "HTTPServer" [("mapstructure", "http_server")]
    (optionalWrapper (GoType.mk "" "" .str)) false

/-- A concrete plain required field: `BatchSize int` with only a
mapstructure name tag. -/
def batchSizeField : GoField :=
  GoField.mk "BatchSize" [("mapstructure", "batch_size")] (GoType.mk "" "" (.int .i)) false

/-- A one-schema backing store: version directory `v0.138.0` holding a
parseable `receiver_otlp.json`. -/
def fsOne : EmbeddedFS :=
  { dirs := [("schemas/v0.138.0", [⟨"receiver_otlp.json", false⟩])],
    files := [("schemas/v0.138.0/receiver_otlp.json",
      some [("title", .str "OTLP Receiver"), ("type", .str "object")])] }

/-- The store of the claim C6 example: `receiver_otlp.json` and
`exporter_debug.json` in one version directory. -/
def fsTwo : EmbeddedFS :=
  { dirs := [("schemas/v0.138.0",
      [⟨"receiver_otlp.json", false⟩, ⟨"exporter_debug.json", false⟩])],
    files := [] }

/-- The empty backing store. -/
def fsEmpty : EmbeddedFS :=
  { dirs := [], files := [] }

/-- A structural check standing in for gojsonschema's rules in closed
counterexamples: accepts everything. -/
def checkAcceptAll : JObj → JValue → ValidationResult :=
  fun _ _ => ⟨true, []⟩

/-- The one-node cyclic type graph: a struct whose single field `child`
points back to the struct itself (`type Node struct with child of type
pointer to Node`). -/
def cycEnv : GEnv :=
  [[("child", GTy.gptr (GTy.gref 0))]]

/-- The field list of the cyclic node. -/
def cycFields : List (String × GTy) :=
  [("child", GTy.gptr (GTy.gref 0))]

/-- An acyclic two-node graph: node 0 is a leaf struct, node 1 references
node 0. -/
def acycEnv : GEnv :=
  [[("name", GTy.gstring)], [("inner", GTy.gref 0)]]

/-! ## Helper lemmas -/

/-- `generateTypeSchemaCore` never returns an error: every branch ends in
a successful schema, swallowing errors of recursive calls. -/
theorem generateTypeSchemaCore_ok (t : GoType) : ∃ o, generateTypeSchemaCore t = .ok o := by
  unfold generateTypeSchemaCore
  repeat' split
  all_goals exact ⟨_, rfl⟩

/-- `generateTypeSchema` never returns an error. -/
theorem generateTypeSchema_ok (t : GoType) : ∃ o, generateTypeSchema t = .ok o := by
  unfold generateTypeSchema
  split
  · exact generateTypeSchemaCore_ok _
  · exact generateTypeSchemaCore_ok _

/-- `unwrapOptionalType` never returns an error. -/
theorem unwrapOptionalType_ok (fs : List GoField) : ∃ o, unwrapOptionalType fs = .ok o := by
  unfold unwrapOptionalType
  split
  · exact generateTypeSchema_ok _
  · split
    · exact generateTypeSchema_ok _
    · exact ⟨_, rfl⟩

/-! ## Claim theorems -/

/-- **C3** (code divergence record): on a field of declared type
`time.Duration` — kind `Int64`, name `Duration`, package `time` — the
first `generatePropertySchema` (schema_generator.go:270-385) emits the
string schema with the fixed duration pattern and description, while the
file's second `generatePropertySchema` (schema_generator.go:768-836)
emits the integer schema implied by the underlying numeric storage: its
`Duration` special case sits inside the `reflect.Struct` branch, which a
`time.Duration` field (kind `Int64`) never reaches.  The claim, the spec,
and the repository's own `validateDurationFields` test
(build/component_schema_test.go:494-521) require the string form. -/
theorem c3_duration_two_copies_diverge :
    generatePropertySchema timeoutField =
      .ok ([("type", .str "string"), ("pattern", .str "^[0-9]+(ns|us|µs|ms|s|m|h)$"),
            ("description", .str "Duration string (e.g., '1s', '5m', '1h')")], true)
    ∧ generatePropertySchemaV2 timeoutField = ([("type", .str "integer")], true) := by
  constructor
  · simp [generatePropertySchema, generatePropertySchemaCore, timeoutField, tyDuration,
      GoType.name, GoType.pkgPath, strContains, charsContains, charsStartsWith, tagGet,
      JObj.set, GoField.tag, GoField.ty]
  · simp [generatePropertySchemaV2, timeoutField, tyDuration, tagGet, strContains,
      charsContains, charsStartsWith, JObj.set, GoField.tag, GoField.ty, GoType.shape]

/-- On the canonical optional wrapper shape, `generatePropertySchemaCore`
always returns the unwrapped payload schema with the required flag forced
to false. -/
theorem generatePropertySchemaCore_optionalWrapper (tag : StructTag) (T : GoType)
    (payload : JObj) (hp : generateTypeSchema (stripPtrOnce T) = .ok payload) (req : Bool) :
    generatePropertySchemaCore tag (optionalWrapper T) req = .ok (payload, false) := by
  have hunwrap : unwrapOptionalType [GoField.mk "value" [] T false,
      GoField.mk "hasValue" [] (GoType.mk "" "" .bool) false] = .ok payload := by
    unfold unwrapOptionalType
    simp [findValueField, GoField.name, GoField.ty, hp]
  have h1 : ¬("Optional[T]" = "Duration" ∧
      strContains "go.opentelemetry.io/collector/config/configoptional" "time" = true) := by
    rintro ⟨h, _⟩
    exact absurd h (by decide)
  have h2 : "Optional[T]" ≠ "Time" := by decide
  have h3 : strStartsWith "Optional[T]" "Optional" = true := by decide
  have h4 : strContains "go.opentelemetry.io/collector/config/configoptional"
      "configoptional" = true := by decide
  unfold generatePropertySchemaCore
  simp only [optionalWrapper, GoType.name, GoType.pkgPath, if_neg h1]
  rw [if_neg (by rintro ⟨h, _⟩; exact h2 h), if_pos ⟨h3, h4⟩]
  rw [hunwrap]

/-- A field of the canonical optional wrapper type derives to the
unwrapped payload schema and is not required. -/
theorem generatePropertySchema_optionalWrapper (fname : String) (tag : StructTag) (T : GoType)
    (payload : JObj) (hp : generateTypeSchema (stripPtrOnce T) = .ok payload) :
    generatePropertySchema (GoField.mk fname tag (optionalWrapper T) false) =
      .ok (payload, false) := by
  unfold generatePropertySchema
  simp only [optionalWrapper]
  exact generatePropertySchemaCore_optionalWrapper tag T payload hp _

/-- **C1**: a struct field whose type is the configoptional Optional
wrapper derives, for every payload type `T` and any tags, to the schema of
the unwrapped payload type at the field's position, and processing such a
field in `analyzeStructFields` leaves the parent's required list
unchanged — the field is never listed as required, regardless of the
required-ness of the payload's own fields. -/
theorem c1_optional_unwrap_never_required (fname : String) (tag : StructTag) (T : GoType) :
    (∃ payload, generateTypeSchema (stripPtrOnce T) = .ok payload ∧
      generatePropertySchema (GoField.mk fname tag (optionalWrapper T) false) =
        .ok (payload, false))
    ∧ ∀ (rest : List GoField) (props : JObj) (required : List String),
        ∃ props', analyzeStructFields (GoField.mk fname tag (optionalWrapper T) false :: rest)
            props required = analyzeStructFields rest props' required := by
  obtain ⟨payload, hp⟩ := generateTypeSchema_ok (stripPtrOnce T)
  have hgen := generatePropertySchema_optionalWrapper fname tag T payload hp
  refine ⟨⟨payload, hp, hgen⟩, ?_⟩
  intro rest props required
  by_cases hExp : isExported fname
  · by_cases hNm : getFieldName (GoField.mk fname tag (optionalWrapper T) false) = "" ∨
        getFieldName (GoField.mk fname tag (optionalWrapper T) false) = "-"
    · refine ⟨props, ?_⟩
      conv_lhs => unfold analyzeStructFields
      simp [GoField.name, GoField.anonymous, hExp, hNm]
    · refine ⟨JObj.set props (getFieldName (GoField.mk fname tag (optionalWrapper T) false))
        (.obj payload), ?_⟩
      conv_lhs => unfold analyzeStructFields
      simp [GoField.name, GoField.anonymous, hExp, hNm, hgen]
  · refine ⟨props, ?_⟩
    conv_lhs => unfold analyzeStructFields
    simp [GoField.name, hExp]

/-- A name that starts with `Optional` is neither `Duration` nor
`Time`. -/
theorem optional_name_ne (name : String) (h : strStartsWith name "Optional" = true) :
    name ≠ "Duration" ∧ name ≠ "Time" := by
  constructor
  · rintro rfl
    revert h
    decide
  · rintro rfl
    revert h
    decide

/-- **C10**: `unwrapOptionalType` is total: it returns a successful
schema for every struct field list; when neither a field named `value`
nor an exported non-empty struct payload field is found it returns the
generic object schema with a nil error; consequently the caller's
fallback branch for a failed unwrap is unreachable, and every field of an
optional-wrapper struct type takes the never-required unwrap path in
`generatePropertySchemaCore`. -/
theorem c10_unwrap_total_fallback_unreachable (fs : List GoField) :
    (∃ o, unwrapOptionalType fs = .ok o)
    ∧ (findValueField fs = none → findFallbackField fs = none →
        unwrapOptionalType fs = .ok [("type", .str "object")])
    ∧ ∀ (tag : StructTag) (name pkg : String) (req : Bool),
        strStartsWith name "Optional" = true → strContains pkg "configoptional" = true →
        ∃ u, unwrapOptionalType fs = .ok u ∧
          generatePropertySchemaCore tag (GoType.mk name pkg (.strct fs)) req =
            .ok (u, false) := by
  obtain ⟨o, ho⟩ := unwrapOptionalType_ok fs
  refine ⟨⟨o, ho⟩, ?_, ?_⟩
  · intro hv hf
    unfold unwrapOptionalType
    split
    · rename_i t ht
      rw [hv] at ht
      exact Option.noConfusion ht
    · split
      · rename_i t ht
        rw [hf] at ht
        exact Option.noConfusion ht
      · simp [JObj.set]
  · intro tag name pkg req hpre hcontains
    obtain ⟨hD, hT⟩ := optional_name_ne name hpre
    refine ⟨o, ho, ?_⟩
    unfold generatePropertySchemaCore
    simp only [GoType.name, GoType.pkgPath]
    rw [if_neg (by rintro ⟨h, _⟩; exact hD h)]
    rw [if_neg (by rintro ⟨h, _⟩; exact hT h), if_pos ⟨hpre, hcontains⟩]
    rw [ho]

/-- The required flag returned by `generatePropertySchemaCore` is the
incoming flag, except that the configoptional unwrapping branch forces it
to false. -/
theorem generatePropertySchemaCore_required (tag : StructTag) (t : GoType) (req : Bool)
    (p : JObj) (r : Bool)
    (h : generatePropertySchemaCore tag t req = .ok (p, r)) :
    r = true ↔ (req = true ∧ ¬ OptionalBranch t) := by
  unfold generatePropertySchemaCore at h
  split at h
  case isTrue hdur =>
    cases h
    have hno : ¬ OptionalBranch t := by
      rintro ⟨_, hnd, _, _⟩
      exact hnd hdur
    simp [hno]
  case isFalse hdur =>
    split at h
    rename_i name pkg shape
    cases shape
    case str =>
      cases h
      simp [OptionalBranch, GoType.shape]
    case int =>
      cases h
      simp [OptionalBranch, GoType.shape]
    case float =>
      cases h
      simp [OptionalBranch, GoType.shape]
    case bool =>
      cases h
      simp [OptionalBranch, GoType.shape]
    case slice =>
      simp only [] at h
      split at h
      · simp at h
      · cases h
        simp [OptionalBranch, GoType.shape]
    case array =>
      simp only [] at h
      split at h
      · simp at h
      · cases h
        simp [OptionalBranch, GoType.shape]
    case map =>
      cases h
      simp [OptionalBranch, GoType.shape]
    case strct fs =>
      simp only [] at h
      split at h
      case isTrue hTime =>
        cases h
        have hno : ¬ OptionalBranch (GoType.mk name pkg (.strct fs)) := by
          rintro ⟨_, _, hnt, _⟩
          exact hnt hTime
        simp [hno]
      case isFalse hTime =>
        split at h
        case isTrue hOpt =>
          split at h
          case _ u hu =>
            cases h
            have hyes : OptionalBranch (GoType.mk name pkg (.strct fs)) :=
              ⟨⟨fs, rfl⟩, hdur, hTime, hOpt⟩
            simp [hyes]
          case _ e he =>
            obtain ⟨o, ho⟩ := unwrapOptionalType_ok fs
            rw [ho] at he
            exact absurd he (by simp)
        case isFalse hOpt =>
          split at h
          · simp at h
          · cases h
            have hno : ¬ OptionalBranch (GoType.mk name pkg (.strct fs)) := by
              rintro ⟨_, _, _, hc⟩
              exact hOpt hc
            simp [hno]
    case iface =>
      cases h
      simp [OptionalBranch, GoType.shape]
    case ptr =>
      cases h
      simp [OptionalBranch, GoType.shape]
    case other =>
      cases h
      simp [OptionalBranch, GoType.shape]

/-- **C2** (amended): the first generator marks a field required exactly
when it is not a pointer, neither its mapstructure nor its json tag
contains `omitempty`, and its (dereferenced) type does not take the
configoptional unwrapping branch; and every pointer field is dispatched
on the pointee type with the required flag already false. -/
theorem c2_required_iff_amended (f : GoField) (p : JObj) (r : Bool)
    (h : generatePropertySchema f = .ok (p, r)) :
    (r = true ↔ (isPtrType f.ty = false ∧
        strContains (tagGet f.tag "mapstructure") "omitempty" = false ∧
        strContains (tagGet f.tag "json") "omitempty" = false ∧
        ¬ OptionalBranch (stripPtrOnce f.ty)))
    ∧ ∀ n pk e, f.ty = GoType.mk n pk (.ptr e) →
        generatePropertySchema f = generatePropertySchemaCore f.tag e false := by
  rcases f with ⟨fname, ftag, fty, fanon⟩
  rcases fty with ⟨n0, p0, S⟩
  by_cases hptr : ∃ e, S = GoShape.ptr e
  · obtain ⟨e, rfl⟩ := hptr
    have hg : generatePropertySchema (GoField.mk fname ftag (GoType.mk n0 p0 (.ptr e)) fanon) =
        generatePropertySchemaCore ftag e false := by
      unfold generatePropertySchema
      rfl
    rw [hg] at h
    have hc := generatePropertySchemaCore_required ftag e false p r h
    constructor
    · rw [hc]
      simp [GoField.ty, isPtrType]
    · intro n pk e' heq
      obtain ⟨-, -, h3⟩ := GoType.mk.inj heq
      obtain rfl := GoShape.ptr.inj h3
      exact hg
  · have hS : ∀ e, S ≠ GoShape.ptr e := fun e he => hptr ⟨e, he⟩
    have hg : generatePropertySchema (GoField.mk fname ftag (GoType.mk n0 p0 S) fanon) =
        generatePropertySchemaCore ftag (GoType.mk n0 p0 S)
          (!strContains (tagGet ftag "mapstructure") "omitempty" &&
            !strContains (tagGet ftag "json") "omitempty") := by
      unfold generatePropertySchema
      cases S
      all_goals first
        | rfl
        | exact absurd rfl (hS _)
    have hstrip : stripPtrOnce (GoType.mk n0 p0 S) = GoType.mk n0 p0 S := by
      unfold stripPtrOnce
      cases S
      all_goals first
        | rfl
        | exact absurd rfl (hS _)
    have hptrf : isPtrType (GoType.mk n0 p0 S) = false := by
      unfold isPtrType
      cases S
      all_goals first
        | rfl
        | exact absurd rfl (hS _)
    rw [hg] at h
    have hc := generatePropertySchemaCore_required ftag (GoType.mk n0 p0 S) _ p r h
    constructor
    · rw [hc]
      simp only [GoField.ty, GoField.tag, hstrip, hptrf, Bool.and_eq_true, Bool.not_eq_true']
      constructor
      · rintro ⟨⟨ha, hb⟩, hno⟩
        exact ⟨trivial, ha, hb, hno⟩
      · rintro ⟨-, ha, hb, hno⟩
        exact ⟨⟨ha, hb⟩, hno⟩
    · intro n pk e heq
      obtain ⟨-, -, h3⟩ := GoType.mk.inj heq
      exact absurd h3 (hS e)

/-- Witness for the amended C2 theorem: the plain `BatchSize` field is
marked required, and the theorem's equivalence holds there. -/
theorem c2_required_iff_amended_witness :
    generatePropertySchema batchSizeField = .ok ([("type", .str "integer")], true) ∧
    (true = true ↔ (isPtrType batchSizeField.ty = false ∧
        strContains (tagGet batchSizeField.tag "mapstructure") "omitempty" = false ∧
        strContains (tagGet batchSizeField.tag "json") "omitempty" = false ∧
        ¬ OptionalBranch (stripPtrOnce batchSizeField.ty))) := by
  have h : generatePropertySchema batchSizeField = .ok ([("type", .str "integer")], true) := by
    unfold generatePropertySchema generatePropertySchemaCore
    simp [batchSizeField, GoType.name, GoType.pkgPath, tagGet, strContains, charsContains,
      charsStartsWith, attachTagDescriptions, JObj.set, JObj.get?]
  exact ⟨h, (c2_required_iff_amended batchSizeField _ _ h).1⟩

/-- **C2** (counterexample): the optional `HTTPServer` field is not a
pointer and carries no omitempty marker in any tag, yet the generator
does not mark it required — refuting the claimed equivalence as
stated. -/
theorem c2_optional_field_not_required_counterexample :
    isPtrType httpServerField.ty = false ∧
    strContains (tagGet httpServerField.tag "mapstructure") "omitempty" = false ∧
    strContains (tagGet httpServerField.tag "json") "omitempty" = false ∧
    generatePropertySchema httpServerField = .ok ([("type", .str "string")], false) := by
  refine ⟨by decide, by decide, by decide, ?_⟩
  have hp : generateTypeSchema (stripPtrOnce (GoType.mk "" "" .str)) =
      .ok [("type", .str "string")] := by
    unfold generateTypeSchema generateTypeSchemaCore
    simp [stripPtrOnce, GoType.name, GoType.pkgPath, JObj.set]
  have := generatePropertySchema_optionalWrapper "HTTPServer" [("mapstructure", "http_server")]
    (GoType.mk "" "" .str) [("type", .str "string")] hp
  simpa [httpServerField] using this

/-- **C8**: the description of a derived field is chosen by
first-match-wins priority: (1) a Documentation-Extractor string, (2) a
non-empty `description` tag, (3) a non-empty comma-free `yaml` tag; once
one source succeeds the later sources are not consulted, and when all
fail no description is attached. -/
theorem c8_description_priority (d : String) (property : JObj) (tag : StructTag) :
    (attachFieldDescription (some d) property tag =
      JObj.set property "description" (.str d))
    ∧ (tagGet tag "description" ≠ "" →
        attachFieldDescription none property tag =
          JObj.set property "description" (.str (tagGet tag "description")))
    ∧ (tagGet tag "description" = "" → tagGet tag "yaml" ≠ "" →
        strContains (tagGet tag "yaml") "," = false →
        JObj.get? property "description" = none →
        attachFieldDescription none property tag =
          JObj.set property "description" (.str (tagGet tag "yaml")))
    ∧ (tagGet tag "description" = "" →
        (tagGet tag "yaml" = "" ∨ strContains (tagGet tag "yaml") "," = true) →
        attachFieldDescription none property tag = property) := by
  refine ⟨rfl, ?_, ?_, ?_⟩
  · intro hdesc
    simp [attachFieldDescription, attachTagDescriptions, hdesc]
  · intro hdesc hyaml hcomma hnone
    simp [attachFieldDescription, attachTagDescriptions, hdesc, hyaml, hcomma, hnone]
  · intro hdesc hfail
    rcases hfail with hy | hc
    · simp [attachFieldDescription, attachTagDescriptions, hdesc, hy]
    · simp [attachFieldDescription, attachTagDescriptions, hdesc, hc]

/-- Witness for C8 at a concrete tag carrying both a description and a
yaml value: the extractor string wins when present, else the description
tag wins over the yaml tag. -/
theorem c8_description_priority_witness :
    attachFieldDescription (some "From the doc comment") [("type", JValue.str "string")]
        [("description", "Database host"), ("yaml", "host")] =
      JObj.set [("type", JValue.str "string")] "description" (.str "From the doc comment") ∧
    attachFieldDescription none [("type", JValue.str "string")]
        [("description", "Database host"), ("yaml", "host")] =
      JObj.set [("type", JValue.str "string")] "description" (.str "Database host") := by
  have h := c8_description_priority "From the doc comment" [("type", JValue.str "string")]
    [("description", "Database host"), ("yaml", "host")]
  refine ⟨h.1, ?_⟩
  have h2 := h.2.1 (by decide)
  simpa [tagGet] using h2

/-- A key written by `cacheSet` is found by `alookup`. -/
theorem alookup_cacheSet (m : List (String × Nat)) (k : String) (v : Nat) :
    alookup (cacheSet m k v) k = some v := by
  induction m with
  | nil => simp [cacheSet, alookup]
  | cons p rest ih =>
    by_cases h : p.1 = k <;> simp [cacheSet, alookup, h, ih]

/-- **C5**: when a `GetComponentSchema` call succeeds, the second call
with the same key returns the identical cached object — the same address
into an unchanged heap — performs no load, and leaves the manager
unchanged. -/
theorem c5_get_twice_identical (sm : SchemaManager) (heap : Heap) (fs : EmbeddedFS)
    (componentType componentName version : String) (addr : Nat)
    (sm' : SchemaManager) (heap' : Heap) (b : Bool)
    (h : GetComponentSchema sm heap fs componentType componentName version =
      (.ok addr, sm', heap', b)) :
    GetComponentSchema sm' heap' fs componentType componentName version =
      (.ok addr, sm', heap', false) := by
  unfold GetComponentSchema at h ⊢
  rcases hc : alookup sm.cache (cacheKeyOf componentType componentName version) with _ | a
  · simp only [hc] at h
    rcases hl : loadSchemaFromFile fs componentType componentName version with e | cs
    · simp only [hl] at h
      simp at h
    · simp only [hl] at h
      simp only [Prod.mk.injEq, Except.ok.injEq] at h
      obtain ⟨h1, h2, h3, h4⟩ := h
      subst h1 h2 h3 h4
      simp only [alookup_cacheSet]
  · simp only [hc] at h
    simp only [Prod.mk.injEq, Except.ok.injEq] at h
    obtain ⟨h1, h2, h3, h4⟩ := h
    subst h1 h2 h3 h4
    simp only [hc]

/-- Witness for C5: the first load of `receiver_otlp` from the one-file
store succeeds, and the second call returns the same address with no
load. -/
theorem c5_get_twice_identical_witness :
    GetComponentSchema ⟨[⟨"receiver_otlp_0.138.0", 0⟩]⟩
        ⟨[{ Name := "otlp", Type' := "receiver", Version := "0.138.0",
            Schema := [("title", .str "OTLP Receiver"), ("type", .str "object")],
            Description := "OTLP Receiver" }]⟩ fsOne "receiver" "otlp" "0.138.0" =
      (.ok 0, ⟨[⟨"receiver_otlp_0.138.0", 0⟩]⟩,
        ⟨[{ Name := "otlp", Type' := "receiver", Version := "0.138.0",
            Schema := [("title", .str "OTLP Receiver"), ("type", .str "object")],
            Description := "OTLP Receiver" }]⟩, false) := by
  have h : GetComponentSchema ⟨[]⟩ ⟨[]⟩ fsOne "receiver" "otlp" "0.138.0" =
      (.ok 0, ⟨[⟨"receiver_otlp_0.138.0", 0⟩]⟩,
        ⟨[{ Name := "otlp", Type' := "receiver", Version := "0.138.0",
            Schema := [("title", .str "OTLP Receiver"), ("type", .str "object")],
            Description := "OTLP Receiver" }]⟩, true) := by rfl
  exact c5_get_twice_identical _ _ _ _ _ _ _ _ _ _ h

/-- **C9**: when the key is uncached and the load fails, the call returns
the error, leaves the cache and heap exactly as they were (no entry is
inserted), and the load step was reached — so an identical later call
performs the load again. -/
theorem c9_failed_load_leaves_cache_unchanged (sm : SchemaManager) (heap : Heap)
    (fs : EmbeddedFS) (componentType componentName version : String) (e : String)
    (hmiss : alookup sm.cache (cacheKeyOf componentType componentName version) = none)
    (hload : loadSchemaFromFile fs componentType componentName version = .error e) :
    GetComponentSchema sm heap fs componentType componentName version =
      (.error e, sm, heap, true) := by
  unfold GetComponentSchema
  simp only [hmiss, hload]

/-- Witness for C9: requesting a component absent from the empty store
fails, touches nothing, and reaches the load step. -/
theorem c9_failed_load_leaves_cache_unchanged_witness :
    GetComponentSchema ⟨[]⟩ ⟨[]⟩ fsEmpty "receiver" "nonexistent" "0.138.0" =
      (.error "schema not found for component receiver nonexistent", ⟨[]⟩, ⟨[]⟩, true) :=
  c9_failed_load_leaves_cache_unchanged ⟨[]⟩ ⟨[]⟩ fsEmpty "receiver" "nonexistent" "0.138.0"
    "schema not found for component receiver nonexistent" rfl rfl

/-- **C7** (amended): whenever the schema loads successfully, a
syntactically malformed candidate document makes `ValidateComponentJSON`
return a wrapped hard error — not a `ValidationResult` with the valid
flag false — whatever the structural checking rules are. -/
theorem c7_malformed_document_hard_error (check : JObj → JValue → ValidationResult)
    (sm : SchemaManager) (heap : Heap) (fs : EmbeddedFS)
    (componentType componentName version : String) (addr : Nat)
    (sm' : SchemaManager) (heap' : Heap) (b : Bool)
    (h : GetComponentSchema sm heap fs componentType componentName version =
      (.ok addr, sm', heap', b)) :
    (ValidateComponentJSON check sm heap fs componentType componentName version none).1 =
      .error ("validation failed for " ++ componentType ++ " " ++ componentName ++ ": " ++
        "invalid character or unexpected end of JSON input") := by
  unfold ValidateComponentJSON
  simp only [h]
  rfl

/-- Witness for the amended C7 theorem at the one-file store. -/
theorem c7_malformed_document_hard_error_witness :
    (ValidateComponentJSON checkAcceptAll ⟨[]⟩ ⟨[]⟩ fsOne "receiver" "otlp" "0.138.0"
        none).1 =
      .error ("validation failed for " ++ "receiver" ++ " " ++ "otlp" ++ ": " ++
        "invalid character or unexpected end of JSON input") :=
  c7_malformed_document_hard_error checkAcceptAll ⟨[]⟩ ⟨[]⟩ fsOne "receiver" "otlp"
    "0.138.0" 0 _ _ _ rfl

/-- **C7** (counterexample): with a schema that loads successfully and an
all-accepting structural check, a malformed candidate document produces a
hard error, not a `ValidationResult` — the claimed valid-flag-false
outcome does not occur. -/
theorem c7_counterexample_malformed_not_result :
    (ValidateComponentJSON checkAcceptAll ⟨[]⟩ ⟨[]⟩ fsOne "receiver" "otlp" "0.138.0"
        none).1 =
      .error
        "validation failed for receiver otlp: invalid character or unexpected end of JSON input"
    ∧ ∀ result : ValidationResult,
        (ValidateComponentJSON checkAcceptAll ⟨[]⟩ ⟨[]⟩ fsOne "receiver" "otlp" "0.138.0"
          none).1 ≠ .ok result := by
  refine ⟨by rfl, ?_⟩
  intro result hres
  rw [show (ValidateComponentJSON checkAcceptAll ⟨[]⟩ ⟨[]⟩ fsOne "receiver" "otlp" "0.138.0"
      none).1 =
    .error
      "validation failed for receiver otlp: invalid character or unexpected end of JSON input"
    from rfl] at hres
  exact Except.noConfusion hres

/-- The list accumulated by `addComponent` under a category key. -/
theorem lookupComponents_addComponent (m : List (String × List String)) (k v c : String) :
    lookupComponents (addComponent m k v) c =
      if k = c then lookupComponents m c ++ [v] else lookupComponents m c := by
  induction m with
  | nil =>
    by_cases h : k = c <;> simp [addComponent, lookupComponents, h]
  | cons p rest ih =>
    rcases p with ⟨pk, pv⟩
    by_cases h1 : pk = k
    · subst h1
      by_cases h2 : pk = c <;> simp [addComponent, lookupComponents, h2]
    · by_cases h2 : pk = c
      · subst h2
        have hkc : ¬ k = pk := fun hk => h1 hk.symm
        simp [addComponent, lookupComponents, h1, hkc]
      · simp [addComponent, lookupComponents, h1, h2, ih]

/-- `listSpecComponents` decomposes entry by entry. -/
theorem listSpecComponents_cons (e : DirEntry) (rest : List DirEntry) (c : String) :
    listSpecComponents (e :: rest) c = entrySpec e c ++ listSpecComponents rest c := by
  unfold listSpecComponents entrySpec
  rw [List.filterMap_cons]
  by_cases h1 : e.isDir = true
  · simp [h1]
  · by_cases h2 : strEndsWith e.name ".json" = true
    · rcases hsplit : splitFirstUnderscore (strTrimSuffix e.name ".json") with _ | pr
      · simp [h1, h2, hsplit]
      · by_cases h3 : (isValidComponentType pr.1 && pr.1 == c) = true
        · simp [h1, h2, hsplit, h3]
        · simp [h1, h2, hsplit, h3]
    · simp [h1, h2]

/-- One `listStep` contributes to a category exactly what the spec-side
per-entry reading contributes. -/
theorem lookupComponents_listStep (m : List (String × List String)) (e : DirEntry)
    (c : String) :
    lookupComponents (listStep m e) c = lookupComponents m c ++ entrySpec e c := by
  unfold listStep entrySpec
  by_cases h1 : e.isDir = true
  · simp [h1]
  · by_cases h2 : strEndsWith e.name ".json" = true
    · rcases hsplit : splitFirstUnderscore (strTrimSuffix e.name ".json") with _ | pr
      · simp [h1, h2, hsplit]
      · by_cases h3 : isValidComponentType pr.1 = true
        · by_cases h4 : pr.1 = c
          · subst h4
            simp [h1, h2, hsplit, h3, lookupComponents_addComponent]
          · simp [h1, h2, hsplit, h3, h4, lookupComponents_addComponent]
        · simp [h1, h2, hsplit, h3]
    · simp [h1, h2]

/-- The whole fold agrees per category with the spec-side reading. -/
theorem lookupComponents_foldl (entries : List DirEntry) (m : List (String × List String))
    (c : String) :
    lookupComponents (entries.foldl listStep m) c =
      lookupComponents m c ++ listSpecComponents entries c := by
  induction entries generalizing m with
  | nil => simp [listSpecComponents]
  | cons e rest ih =>
    rw [List.foldl_cons, ih, lookupComponents_listStep, listSpecComponents_cons,
      List.append_assoc]

/-- **C6**: `ListAvailableComponents` of a stored version directory
succeeds and, per category, returns exactly the names obtained by
splitting each stored `.json` filename at the first underscore — skipping
directories, non-json entries and names without an underscore, and
discarding entries whose category is not one of the five fixed ones. -/
theorem c6_list_parses_filenames (fs : EmbeddedFS) (version : String)
    (entries : List DirEntry)
    (hdir : alookup fs.dirs ("schemas/v" ++ version) = some entries) :
    ∃ m, ListAvailableComponents fs version = .ok m ∧
      ∀ c, lookupComponents m c = listSpecComponents entries c := by
  refine ⟨entries.foldl listStep [], ?_, ?_⟩
  · unfold ListAvailableComponents listEmbeddedComponents
    simp [hdir]
  · intro c
    rw [lookupComponents_foldl]
    simp [lookupComponents]

/-- Witness for C6: the store holding `receiver_otlp.json` and
`exporter_debug.json` lists exactly receiver `otlp` and exporter
`debug`. -/
theorem c6_list_parses_filenames_witness :
    (∃ m, ListAvailableComponents fsTwo "0.138.0" = .ok m ∧
      ∀ c, lookupComponents m c = listSpecComponents
        [⟨"receiver_otlp.json", false⟩, ⟨"exporter_debug.json", false⟩] c) ∧
    ListAvailableComponents fsTwo "0.138.0" =
      .ok [("receiver", ["otlp"]), ("exporter", ["debug"])] := by
  constructor
  · exact c6_list_parses_filenames fsTwo "0.138.0"
      [⟨"receiver_otlp.json", false⟩, ⟨"exporter_debug.json", false⟩] rfl
  · rfl

/-- Membership in the reference list of a field list. -/
theorem mem_fieldRefs {fields : List (String × GTy)} {f : String × GTy} {j : Nat}
    (hf : f ∈ fields) (hj : j ∈ refsOfGTy f.2) : j ∈ fieldRefs fields := by
  induction fields with
  | nil => cases hf
  | cons g rest ih =>
    rcases List.mem_cons.mp hf with rfl | hmem
    · exact List.mem_append.mpr (Or.inl hj)
    · exact List.mem_append.mpr (Or.inr (ih hmem))

/-- The field loop succeeds when every field's property derivation
succeeds. -/
theorem goStructFieldsG_isSome (n : Nat) (env : GEnv) (fields : List (String × GTy))
    (acc : JObj)
    (h : ∀ f ∈ fields, (generatePropertySchemaG n env f.2).isSome = true) :
    (goStructFieldsG n env fields acc).isSome = true := by
  induction fields generalizing acc with
  | nil => simp [goStructFieldsG]
  | cons f rest ih =>
    unfold goStructFieldsG
    rcases hg : generatePropertySchemaG n env f.2 with _ | p
    · have hf := h f (List.mem_cons_self f rest)
      rw [hg] at hf
      simp at hf
    · simp only [hg]
      exact ih _ (fun g hg2 => h g (List.mem_cons_of_mem f hg2))

/-- The dispatch of the graph-view property derivation. -/
theorem generatePropertySchemaG_eq (n : Nat) (env : GEnv) (t : GTy) :
    generatePropertySchemaG n env t =
      generatePropertySchemaGCore n env
        (match t with
          | .gptr e => e
          | t => t) := by
  cases t
  all_goals unfold generatePropertySchemaG
  all_goals rfl

/-- A string kind always derives in the core switch. -/
theorem generatePropertySchemaGCore_gstring (n : Nat) (env : GEnv) :
    (generatePropertySchemaGCore n env .gstring).isSome = true := by
  unfold generatePropertySchemaGCore
  rfl

/-- A doubly-indirected kind falls to the opaque default. -/
theorem generatePropertySchemaGCore_gptr (n : Nat) (env : GEnv) (e : GTy) :
    (generatePropertySchemaGCore n env (.gptr e)).isSome = true := by
  unfold generatePropertySchemaGCore
  rfl

/-- A struct reference derives when its node's field analysis does. -/
theorem generatePropertySchemaGCore_gref_isSome (n : Nat) (env : GEnv) (j : Nat)
    (h : ∀ fieldsJ, env.get? j = some fieldsJ →
      (analyzeStructFieldsG n env fieldsJ).isSome = true) :
    (generatePropertySchemaGCore n env (.gref j)).isSome = true := by
  unfold generatePropertySchemaGCore
  rcases henv : env.get? j with _ | fieldsJ
  · simp [henv]
  · have h2 := h fieldsJ henv
    rcases ha : analyzeStructFieldsG n env fieldsJ with _ | props
    · rw [ha] at h2
      simp at h2
    · simp [henv, ha]

/-- On a rank-acyclic graph, fuel one more than the rank bound of the
starting field list always suffices. -/
theorem analyzeStructFieldsG_isSome (env : GEnv) (rank : Nat → Nat) (hrank : RankOK env rank) :
    ∀ n fields, (∀ j ∈ fieldRefs fields, rank j < n) →
      (analyzeStructFieldsG (n + 1) env fields).isSome = true := by
  intro n
  induction n with
  | zero =>
    intro fields hf
    unfold analyzeStructFieldsG
    apply goStructFieldsG_isSome
    intro f hfmem
    rcases f with ⟨nm, ty⟩
    rcases ty with _ | e | j
    · rw [generatePropertySchemaG_eq]
      exact generatePropertySchemaGCore_gstring _ _
    · rcases e with _ | e2 | j
      · rw [generatePropertySchemaG_eq]
        exact generatePropertySchemaGCore_gstring _ _
      · rw [generatePropertySchemaG_eq]
        exact generatePropertySchemaGCore_gptr _ _ _
      · exact absurd (hf j (mem_fieldRefs hfmem (by simp [refsOfGTy]))) (Nat.not_lt_zero _)
    · exact absurd (hf j (mem_fieldRefs hfmem (by simp [refsOfGTy]))) (Nat.not_lt_zero _)
  | succ m ih =>
    intro fields hf
    unfold analyzeStructFieldsG
    apply goStructFieldsG_isSome
    intro f hfmem
    rcases f with ⟨nm, ty⟩
    rcases ty with _ | e | j
    · rw [generatePropertySchemaG_eq]
      exact generatePropertySchemaGCore_gstring _ _
    · rcases e with _ | e2 | j
      · rw [generatePropertySchemaG_eq]
        exact generatePropertySchemaGCore_gstring _ _
      · rw [generatePropertySchemaG_eq]
        exact generatePropertySchemaGCore_gptr _ _ _
      · rw [generatePropertySchemaG_eq]
        apply generatePropertySchemaGCore_gref_isSome
        intro fieldsJ henv
        apply ih
        intro j2 hj2
        have hlt := hrank j fieldsJ henv j2 hj2
        have hjn := hf j (mem_fieldRefs hfmem (by simp [refsOfGTy]))
        omega
    · rw [generatePropertySchemaG_eq]
      apply generatePropertySchemaGCore_gref_isSome
      intro fieldsJ henv
      apply ih
      intro j2 hj2
      have hlt := hrank j fieldsJ henv j2 hj2
      have hjn := hf j (mem_fieldRefs hfmem (by simp [refsOfGTy]))
      omega

/-- **C4** (amended): on every acyclic type graph — one admitting a rank
function that strictly descends along struct references — the recursion
of `analyzeStructFields` / `generatePropertySchema` completes once given
fuel beyond the rank bound; the claimed termination holds only for such
graphs. -/
theorem c4_acyclic_graphs_terminate (env : GEnv) (rank : Nat → Nat)
    (hrank : RankOK env rank) (n : Nat) (fields : List (String × GTy))
    (hf : ∀ j ∈ fieldRefs fields, rank j < n) :
    derivesWithSomeFuel env fields :=
  ⟨n + 1, analyzeStructFieldsG_isSome env rank hrank n fields hf⟩

/-- Witness for the amended C4 theorem: the acyclic two-node graph
derives within finite fuel. -/
theorem c4_acyclic_graphs_terminate_witness :
    derivesWithSomeFuel acycEnv [("inner", GTy.gref 0)] := by
  apply c4_acyclic_graphs_terminate acycEnv (fun i => i) ?_ 1 [("inner", GTy.gref 0)] ?_
  · intro i fields h j hj
    match i with
    | 0 =>
      simp only [acycEnv, List.get?] at h
      cases h
      simp [fieldRefs, refsOfGTy] at hj
    | 1 =>
      simp only [acycEnv, List.get?] at h
      cases h
      simp [fieldRefs, refsOfGTy] at hj
      subst hj
      show (0 : Nat) < 1
      decide
    | (k + 2) =>
      simp [acycEnv, List.get?] at h
  · intro j hj
    simp [fieldRefs, refsOfGTy] at hj
    subst hj
    show (0 : Nat) < 1
    decide

/-- Any amount of fuel is exhausted on the self-referential node. -/
theorem analyzeStructFieldsG_cyc (n : Nat) :
    analyzeStructFieldsG n cycEnv cycFields = none := by
  induction n with
  | zero =>
    unfold analyzeStructFieldsG
    rfl
  | succ m ih =>
    unfold analyzeStructFieldsG goStructFieldsG generatePropertySchemaG
      generatePropertySchemaGCore
    simp only [cycEnv, cycFields] at ih ⊢
    simp [ih]

/-- **C4** (counterexample): on the self-referential struct node the
engine's recursion never completes: no amount of fuel suffices, because
the source recurses through the cycle with no revisit detection and no
opaque-schema fallback. -/
theorem c4_cyclic_graph_never_terminates : ¬ derivesWithSomeFuel cycEnv cycFields := by
  rintro ⟨n, hn⟩
  rw [analyzeStructFieldsG_cyc n] at hn
  simp at hn

end CollectorSchema
